import Mathlib

/-!
Verification of the clonewriter pluggable vector-store layer.

This file shallowly embeds the retrieval (vector-store) code of the
repository: the flat-file keyword backend, the Redis and MariaDB backends
with their keyword-fallback paths, the ChromaDB result flattening, the
hand-rolled text embedding function, and the store factory with its
health-check fallback.  JavaScript strings are modelled as lists of UTF-16
code units, JavaScript numbers as rationals (reals where a square root is
taken), and side-effecting operations as explicit state passing.
-/

/-! ## Strings as lists of UTF-16 code units -/

/-- A JavaScript string, modelled as its list of UTF-16 code units. -/
abbrev Str := List Nat

/-- Code units of a Lean string literal (all our examples are ASCII, where
code points and UTF-16 code units agree). -/
def strCodes (s : String) : Str := s.toList.map Char.toNat

/-- One code unit of `String.prototype.toLowerCase`, modelled on the ASCII
range (the only range exercised by the repository's data and tests). -/
def toLowerCode (c : Nat) : Nat := if 65 ≤ c ∧ c ≤ 90 then c + 32 else c

/-- Model of `text.toLowerCase()`. -/
def lowerStr (s : Str) : Str := s.map toLowerCode

/-- The code units matched by the JavaScript regular-expression class
`\s`: tab through carriage return, space, NBSP, the Unicode space
separators, line/paragraph separators, and the BOM. -/
def wsCodes : List Nat :=
  [9, 10, 11, 12, 13, 32, 160, 5760, 8192, 8193, 8194, 8195, 8196, 8197,
   8198, 8199, 8200, 8201, 8202, 8232, 8233, 8239, 8287, 12288, 65279]

/-- Whether a code unit is whitespace in the sense of the regex `\s`. -/
def isWs (c : Nat) : Bool := wsCodes.contains c

/-- Helper for `splitWs`: walks the string accumulating the current token
(in reverse).  The flag records whether we are inside a separator run: the
first whitespace code unit of a run emits the current token, the rest of
the run is skipped, matching how `split(/\s+/)` treats a maximal run as
one separator. -/
def splitWsAux (inRun : Bool) (l : List Nat) (cur : List Nat) :
    List (List Nat) :=
  match l with
  | [] => [cur.reverse]
  | c :: rest =>
    if isWs c then
      if inRun then splitWsAux true rest cur
      else cur.reverse :: splitWsAux true rest []
    else splitWsAux false rest (c :: cur)

/-- Model of `s.split(/\s+/)` in JavaScript: separators are maximal runs
of whitespace; a leading run yields an empty first token, a trailing run an
empty last token, and the empty string yields `[""]`. -/
def splitWs (s : Str) : List Str := splitWsAux false s []

/-- Boolean test that `p` is a prefix of the second list. -/
def isPrefixB : Str → Str → Bool
  | [], _ => true
  | _ :: _, [] => false
  | a :: as, b :: bs => a == b && isPrefixB as bs

/-- Model of `hay.includes(needle)` on JavaScript strings: the needle
occurs contiguously somewhere in the hay (the empty needle always
occurs). -/
def includesB (hay needle : Str) : Bool :=
  isPrefixB needle hay ||
    match hay with
    | [] => false
    | _ :: rest => includesB rest needle

/-! ## Shared data model -/

/-- Metadata object, modelled as a list of string key/value pairs. -/
abbrev Meta := List (Str × Str)

/-- A stored document: `{ id, text, metadata? }`. -/
structure Document where
  id : Str
  text : Str
  metadata : Option Meta
deriving DecidableEq, Repr

/-- The result shape shared by all backends:
`{ documents, metadatas, distances }`. -/
structure SearchResult where
  documents : List Str
  metadatas : List Meta
  distances : List ℚ
deriving DecidableEq, Repr

/-- The empty search result returned for an empty corpus. -/
def emptySearchResult : SearchResult := ⟨[], [], []⟩

deriving instance DecidableEq for Except

/-- The keyword-overlap score used by the flat-file backend and the Redis
keyword fallback: the number of query words that are substrings of the
lowercased document text, divided by the total number of query words
(`queryWords.filter(word => textLower.includes(word)).length /
queryWords.length`).  `split(/\s+/)` never yields an empty list, so the
denominator is never zero. -/
def keywordScore (queryWords : List Str) (textLower : Str) : ℚ :=
  ((queryWords.filter (fun w => includesB textLower w)).length : ℚ) /
    (queryWords.length : ℚ)

/-- The comparator `(a, b) => b.score - a.score` passed to `Array.sort`:
`a` may stay before `b` exactly when `b.score ≤ a.score`. -/
def byScoreDesc {α : Type} (a b : α × ℚ) : Prop := b.2 ≤ a.2

instance {α : Type} : DecidableRel (@byScoreDesc α) := fun a b =>
  inferInstanceAs (Decidable (b.2 ≤ a.2))

/-- Model of `Array.prototype.sort` with the descending-score comparator.
ECMAScript sort is stable, so a stable insertion sort is a faithful
model. -/
def sortByScoreDesc {α : Type} (l : List (α × ℚ)) : List (α × ℚ) :=
  l.insertionSort byScoreDesc

/-! ## Flat-file keyword backend (`FileBasedVectorStore`, and the
identical module-level functions of `vector-store.server.ts`) -/

/-- The observable state of the flat-file backend's world: the contents of
`vector_store/documents.json` (`none` = file missing), plus whether
directory creation or file writing would fail. -/
structure FileFS where
  stored : Option (List Document)
  mkdirFails : Bool
  writeFails : Bool
deriving DecidableEq

namespace FileBasedVectorStore

/-- `loadDocuments`: a missing (or unreadable) storage file is treated as
an empty collection, never an error. -/
def loadDocuments (fs : FileFS) : List Document := fs.stored.getD []

/-- `saveDocuments`: `mkdir` + `writeFile` inside `try { .. } catch
(error) { console.error(..) }` — a failure leaves the file unchanged and
is swallowed, so the operation always resolves successfully. -/
def saveDocuments (fs : FileFS) (docs : List Document) :
    FileFS × Except String Unit :=
  if fs.mkdirFails || fs.writeFails then (fs, Except.ok ())
  else ({ fs with stored := some docs }, Except.ok ())

/-- `init`: `await mkdir(this.storageDir, { recursive: true })` with no
catch — a directory-creation failure rejects. -/
def init (fs : FileFS) : Except String Unit :=
  if fs.mkdirFails then Except.error "mkdir failed" else Except.ok ()

/-- `healthCheck`: tries the mkdir and converts any failure to `false`. -/
def healthCheck (fs : FileFS) : Bool := !fs.mkdirFails

/-- `getOrCreateCollection`: reports the collection name and the number of
stored documents. -/
def getOrCreateCollection (fs : FileFS) (collectionName : Str) : Str × Nat :=
  (collectionName, (loadDocuments fs).length)

/-- `addDocuments`: load, append the new batch, save the whole array. -/
def addDocuments (fs : FileFS) (docs : List Document) :
    FileFS × Except String Unit :=
  saveDocuments fs (loadDocuments fs ++ docs)

/-- `clearCollection`: save the empty array. -/
def clearCollection (fs : FileFS) : FileFS × Except String Unit :=
  saveDocuments fs []

/-- `queryDocuments`: load all documents; empty corpus returns the empty
result; otherwise score every document by keyword overlap, sort descending
by score (stable), take the first `nResults`, and if that slice is empty
fall back to the first `nResults` documents with placeholder score `0.3`.
Reported distance is `1 - score`. -/
def queryDocuments (fs : FileFS) (query : Str) (nResults : Nat) :
    SearchResult :=
  let documents := loadDocuments fs
  if documents.isEmpty then emptySearchResult
  else
    let queryLower := lowerStr query
    let queryWords := splitWs queryLower
    let results :=
      (sortByScoreDesc (documents.map fun doc =>
        (doc, keywordScore queryWords (lowerStr doc.text)))).take nResults
    let finalResults :=
      if results.isEmpty then
        (documents.take nResults).map fun doc => (doc, (3 : ℚ) / 10)
      else results
    { documents := finalResults.map fun r => r.1.text
      metadatas := finalResults.map fun r => r.1.metadata.getD []
      distances := finalResults.map fun r => 1 - r.2 }

end FileBasedVectorStore

/-! ## The hand-rolled embedding function (`simpleTextEmbedding`), shared
verbatim by the Redis and MariaDB implementations -/

/-- Add `q` to slot `i` of the vector, the effect of
`vector[position] += charCode / 1000`. -/
def addAt (v : List ℚ) (i : Nat) (q : ℚ) : List ℚ :=
  v.set i (v.getD i 0 + q)

/-- The accumulation loop of `simpleTextEmbedding`: starting from the zero
vector, for each word at position `idx` and each of its code units `c`,
add `c / 1000` to slot `(c + idx) % dimensions`. -/
def simpleTextEmbeddingRaw (text : Str) (dimensions : Nat) : List ℚ :=
  let words := splitWs (lowerStr text)
  words.enum.foldl
    (fun v iw =>
      iw.2.foldl (fun w c => addAt w ((c + iw.1) % dimensions) ((c : ℚ) / 1000)) v)
    (List.replicate dimensions 0)

/-- Sum of squared entries of a rational vector (the square of the
magnitude computed by the source before taking `Math.sqrt`). -/
def sumSq (v : List ℚ) : ℚ := (v.map fun x => x * x).sum

/-- Sum of squared entries of a real vector: the squared L2 norm. -/
def normSqR (v : List ℝ) : ℝ := (v.map fun x => x * x).sum

/-- `simpleTextEmbedding`: the accumulation loop followed by L2
normalization — `magnitude > 0 ? vector.map(v => v / magnitude) :
vector`.  JavaScript numbers are modelled as reals here because of the
square root. -/
noncomputable def simpleTextEmbedding (text : Str) (dimensions : Nat) :
    List ℝ :=
  let vector := simpleTextEmbeddingRaw text dimensions
  let magnitude : ℝ := Real.sqrt ((sumSq vector : ℚ) : ℝ)
  if 0 < magnitude then vector.map fun q : ℚ => (q : ℝ) / magnitude
  else vector.map fun q : ℚ => (q : ℝ)

/-! ## Redis backend (`RedisVectorStore`) -/

namespace RedisVectorStore

/-- The stored hashes under the collection prefix, one per added document
(`addDocuments` writes `{id, text, metadata, vector}` at key
`collection:id`).  The vector field is recomputable from the text and is
not consulted by any code path modelled here, so it is omitted. -/
abbrev KV := List Document

/-- `addDocuments`: one `hSet` per document under the collection prefix. -/
def addDocuments (kv : KV) (docs : List Document) : KV := kv ++ docs

/-- `clearCollection`: enumerate all keys under the prefix and delete
them, reporting the count removed. -/
def clearCollection (kv : KV) : KV × Nat := ([], kv.length)

/-- `keywordSearch`, the fallback path: linearly scan every key, score
each document by keyword overlap (the same scoring as the flat-file
backend), sort descending by score, take the first `nResults`, and report
distance `1 - score` for each. -/
def keywordSearch (kv : KV) (query : Str) (nResults : Nat) : SearchResult :=
  let queryWords := splitWs (lowerStr query)
  let results := kv.map fun doc =>
    (doc, keywordScore queryWords (lowerStr doc.text))
  let topResults := (sortByScoreDesc results).take nResults
  { documents := topResults.map fun r => r.1.text
    metadatas := topResults.map fun r => r.1.metadata.getD []
    distances := topResults.map fun r => 1 - r.2 }

/-- A row of a successful `FT.SEARCH` KNN reply: text, parsed metadata,
parsed distance. -/
abbrev KnnRow := Str × Meta × ℚ

/-- `queryDocuments`: issue the KNN vector search (whose outcome, produced
by the external Redis engine, is passed in); on success flatten the reply
rows into the result arrays, and if the KNN query failed for any reason
fall back to `keywordSearch`. -/
def queryDocuments (knn : Except String (List KnnRow)) (kv : KV)
    (query : Str) (nResults : Nat) : SearchResult :=
  match knn with
  | Except.ok rows =>
    { documents := rows.map fun r => r.1
      metadatas := rows.map fun r => r.2.1
      distances := rows.map fun r => r.2.2 }
  | Except.error _ => keywordSearch kv query nResults

end RedisVectorStore

/-! ## MariaDB backend (`MariaDBVectorStore`) -/

namespace MariaDBVectorStore

/-- Whether a code unit is an ASCII digit (the regex class `\d`). -/
def isDigit (c : Nat) : Bool := 48 ≤ c && c ≤ 57

/-- Numeric value of a digit string (`parseInt` on a capture of `\d+`). -/
def digitsToNat (ds : List Nat) : Nat :=
  ds.foldl (fun acc c => 10 * acc + (c - 48)) 0

/-- Model of `version.match(/^(\d+)\.(\d+)/)` followed by `parseInt` on
the two captures: a maximal run of leading digits, a literal dot, and a
second run of digits; `none` when the anchored pattern does not match. -/
def parseVersion (version : Str) : Option (Nat × Nat) :=
  let d1 := version.takeWhile fun c => isDigit c
  if d1.isEmpty then none
  else
    match version.drop d1.length with
    | [] => none
    | c :: rest =>
      if c = 46 then
        let d2 := rest.takeWhile fun d => isDigit d
        if d2.isEmpty then none
        else some (digitsToNat d1, digitsToNat d2)
      else none

/-- `checkVectorSupport`: MariaDB 11.6+ has native vector support; a
version string that does not parse selects `false`. -/
def checkVectorSupport (version : Str) : Bool :=
  match parseVersion version with
  | none => false
  | some (major, minor) => major > 11 || (major = 11 && minor ≥ 6)

/-- The two table layouts `createTableIfNotExists` can create. -/
inductive TableLayout where
  /-- `vector VECTOR(dims) NOT NULL` with an HNSW index. -/
  | vectorColumn : TableLayout
  /-- `vector JSON NOT NULL`, the fallback for older engines. -/
  | jsonColumn : TableLayout
deriving DecidableEq, Repr

/-- `createTableIfNotExists`: queries `SELECT VERSION()` and creates the
table with the native vector column and HNSW index exactly when
`checkVectorSupport` holds, and with the JSON fallback column otherwise. -/
def createTableIfNotExists (version : Str) : TableLayout :=
  if checkVectorSupport version then TableLayout.vectorColumn
  else TableLayout.jsonColumn

/-- The connection-level state: the table layout chosen at bootstrap and
the stored rows. -/
structure MariaState where
  layout : TableLayout
  rows : List Document
deriving DecidableEq

/-- `init` on a fresh database: connect, create the database, and run
`createTableIfNotExists`, which fixes the table layout; the fresh table is
empty. -/
def init (version : Str) : MariaState :=
  { layout := createTableIfNotExists version, rows := [] }

/-- `addDocuments`: one INSERT per document (embedding serialized into the
vector column, not consulted again by the modelled paths). -/
def addDocuments (s : MariaState) (docs : List Document) : MariaState :=
  { s with rows := s.rows ++ docs }

/-- `clearCollection`: `DELETE FROM` the table; the table itself (and its
layout) persists. -/
def clearCollection (s : MariaState) : MariaState := { s with rows := [] }

/-- Whether a row matches the `LOWER(text) LIKE %word%` conditions joined
by OR. -/
def likeMatches (queryWords : List Str) (doc : Document) : Bool :=
  queryWords.any fun w => includesB (lowerStr doc.text) w

/-- `keywordSearch`, the fallback path: a LIKE-based scan joined by OR in
the engine's natural row order, `LIMIT nResults`, with the fixed distance
`0.5` for every returned row and no relevance ranking. -/
def keywordSearch (s : MariaState) (query : Str) (nResults : Nat) :
    SearchResult :=
  let queryWords := splitWs (lowerStr query)
  let rows := (s.rows.filter fun doc => likeMatches queryWords doc).take nResults
  { documents := rows.map fun doc => doc.text
    metadatas := rows.map fun doc => doc.metadata.getD []
    distances := rows.map fun _ => (1 : ℚ) / 2 }

/-- `queryDocuments`: issue the `VEC_DISTANCE_COSINE` ranking query (whose
outcome, produced by the external engine, is passed in); on success
flatten the rows; if the vector query fails for any reason fall back to
`keywordSearch`.  The table layout is not consulted. -/
def queryDocuments (vecQuery : Except String (List (Str × Meta × ℚ)))
    (s : MariaState) (query : Str) (nResults : Nat) :
    SearchResult × MariaState :=
  match vecQuery with
  | Except.ok rows =>
    ({ documents := rows.map fun r => r.1
       metadatas := rows.map fun r => r.2.1
       distances := rows.map fun r => r.2.2 }, s)
  | Except.error _ => (keywordSearch s query nResults, s)

end MariaDBVectorStore

/-! ## ChromaDB backend (`ChromaDBVectorStore`) -/

namespace ChromaDBVectorStore

/-- The externally managed collection: the documents the Chroma server
holds for this collection name. -/
abbrev ChromaCollection := List (Str × Meta)

/-- `clearCollection`: DELETE the collection on the server, then
immediately recreate it empty via `getOrCreateCollection`. -/
def clearCollection (_c : ChromaCollection) : ChromaCollection := []

/-- `queryDocuments`, the client-side part: the server replies with nested
per-query arrays; this client issues exactly one query, so it flattens
index `[0]` of each array, substituting `[]` for a missing entry
(`result.documents[0] || []`). -/
def flattenQueryResult (docs : Option (List Str)) (metas : Option (List Meta))
    (dists : Option (List ℚ)) : SearchResult :=
  { documents := docs.getD []
    metadatas := metas.getD []
    distances := dists.getD [] }

end ChromaDBVectorStore

/-! ## Store factory (`VectorStoreFactory`) -/

/-- The four backend type tags. -/
inductive VectorStoreType where
  | file : VectorStoreType
  | chroma : VectorStoreType
  | redis : VectorStoreType
  | mariadb : VectorStoreType
deriving DecidableEq, Repr

/-- The external world the factory's resolution sequence can observe:
which backend probes succeed. -/
structure FactoryEnv where
  /-- The configured store type (after `getConfiguredType` has defaulted
  unrecognized values to the file type). -/
  configured : VectorStoreType
  /-- The Chroma heartbeat endpoint responds OK. -/
  chromaHeartbeatOk : Bool
  /-- The Chroma get-or-create collection call succeeds. -/
  chromaCollectionOk : Bool
  /-- Connecting the Redis client succeeds (index creation failures are
  swallowed by `createIndexIfNotExists`, so they cannot fail `init`). -/
  redisConnectOk : Bool
  /-- `PING` on the connected Redis client returns `PONG`. -/
  redisPingOk : Bool
  /-- MariaDB connection and schema bootstrap succeed. -/
  mariaInitOk : Bool
  /-- `SELECT 1` on the MariaDB connection succeeds. -/
  mariaSelectOk : Bool
  /-- Creating the flat-file storage directory succeeds. -/
  fileMkdirOk : Bool
deriving DecidableEq

/-- Whether `init()` resolves for each backend.  Per the sources:
the file store only runs `mkdir`; the Chroma store first runs its own
health check and THROWS when it fails, then gets or creates the
collection; the Redis store fails only if connecting fails; the MariaDB
store fails if connecting or table bootstrap fails. -/
def initOutcome (e : FactoryEnv) : VectorStoreType → Bool
  | VectorStoreType.file => e.fileMkdirOk
  | VectorStoreType.chroma => e.chromaHeartbeatOk && e.chromaCollectionOk
  | VectorStoreType.redis => e.redisConnectOk
  | VectorStoreType.mariadb => e.mariaInitOk

/-- Whether `healthCheck()` returns `true` for each backend, probed right
after a successful `init()`. -/
def healthOutcome (e : FactoryEnv) : VectorStoreType → Bool
  | VectorStoreType.file => e.fileMkdirOk
  | VectorStoreType.chroma => e.chromaHeartbeatOk
  | VectorStoreType.redis => e.redisPingOk
  | VectorStoreType.mariadb => e.mariaSelectOk

/-- A constructed store instance: its concrete backend class and the
collection name it was configured with. -/
structure StoreInstance where
  type : VectorStoreType
  collectionName : Str
deriving DecidableEq

namespace VectorStoreFactory

/-- `create`: construct an instance of the given type; every constructor
defaults the collection name to `clonewriter`. -/
def create (t : VectorStoreType) (config : Option Str) : StoreInstance :=
  { type := t, collectionName := config.getD (strCodes "clonewriter") }

/-- The factory's module-level singleton state: the cached instance and
its type tag. -/
structure FactoryState where
  instance? : Option StoreInstance
  currentType : Option VectorStoreType
deriving DecidableEq

/-- The state before any retrieval call. -/
def initialState : FactoryState := ⟨none, none⟩

/-- The Resolving → Initializing → HealthChecking → Ready sequence of
`getInstance` when a new instance must be built: construct the requested
backend and cache it, run `init()` (an `init` rejection propagates, with
the cache already holding the new instance), then run `healthCheck()`;
on a failed health check discard the instance, construct the file store,
cache it, and run its `init()`. -/
def resolve (e : FactoryEnv) (config : Option Str) (requested : VectorStoreType) :
    Except String StoreInstance × FactoryState :=
  let inst := create requested config
  let s1 : FactoryState := ⟨some inst, some requested⟩
  if initOutcome e requested then
    if healthOutcome e requested then (Except.ok inst, s1)
    else
      let fileInst := create VectorStoreType.file config
      let s2 : FactoryState := ⟨some fileInst, some VectorStoreType.file⟩
      if initOutcome e VectorStoreType.file then (Except.ok fileInst, s2)
      else (Except.error "init failed", s2)
  else (Except.error "init failed", s1)

/-- `getInstance`: reuse the cached singleton when one exists and its type
matches the presently configured type; otherwise run the full resolution
sequence. -/
def getInstance (e : FactoryEnv) (config : Option Str) (s : FactoryState) :
    Except String StoreInstance × FactoryState :=
  match s.instance? with
  | some inst =>
    if s.currentType = some e.configured then (Except.ok inst, s)
    else resolve e config e.configured
  | none => resolve e config e.configured

end VectorStoreFactory

/-! ## Shared lemmas about the stable descending sort -/

instance {α : Type} : IsTotal (α × ℚ) byScoreDesc :=
  ⟨fun a b => le_total b.2 a.2⟩

instance {α : Type} : IsTrans (α × ℚ) byScoreDesc :=
  ⟨fun _ _ _ h1 h2 => le_trans h2 h1⟩

theorem length_sortByScoreDesc {α : Type} (l : List (α × ℚ)) :
    (sortByScoreDesc l).length = l.length :=
  List.length_insertionSort byScoreDesc l

theorem mem_sortByScoreDesc {α : Type} {l : List (α × ℚ)} {p : α × ℚ} :
    p ∈ sortByScoreDesc l ↔ p ∈ l :=
  List.mem_insertionSort byScoreDesc

theorem sorted_sortByScoreDesc {α : Type} (l : List (α × ℚ)) :
    List.Sorted byScoreDesc (sortByScoreDesc l) :=
  List.sorted_insertionSort byScoreDesc l

/-- A stable sort leaves a list whose scores are all equal (in particular
all zero) in its original order. -/
theorem sortByScoreDesc_const {α : Type} (c : ℚ) :
    ∀ l : List (α × ℚ), (∀ p ∈ l, p.2 = c) → sortByScoreDesc l = l := by
  intro l
  induction l with
  | nil => intro _; rfl
  | cons a l ih =>
    intro h
    have ha : a.2 = c := h a (List.mem_cons_self a l)
    have hl : ∀ p ∈ l, p.2 = c := fun p hp => h p (List.mem_cons_of_mem a hp)
    show List.orderedInsert byScoreDesc a (List.insertionSort byScoreDesc l) = a :: l
    rw [show List.insertionSort byScoreDesc l = l from ih hl]
    cases l with
    | nil => rfl
    | cons b l2 =>
      have hb : b.2 = c := hl b (List.mem_cons_self b l2)
      show (if byScoreDesc a b then a :: b :: l2 else
        b :: List.orderedInsert byScoreDesc a l2) = a :: b :: l2
      rw [if_pos]
      show b.2 ≤ a.2
      rw [ha, hb]

/-- Every keyword score is zero when no query word occurs in any
document. -/
theorem keywordScore_eq_zero {queryWords : List Str} {textLower : Str}
    (h : ∀ w ∈ queryWords, includesB textLower w = false) :
    keywordScore queryWords textLower = 0 := by
  unfold keywordScore
  rw [List.filter_eq_nil_iff.mpr]
  · simp
  · intro w hw
    simp [h w hw]

/-! ## Claim theorems about the flat-file backend -/

section RatEval
attribute [local semireducible] Rat.add Rat.mul Rat.inv Rat.sub

/-- C5: the flat-file backend scores each document by the fraction of
whitespace-delimited lowercase query words occurring as substrings of the
lowercased document text and ranks descending by score: for documents
"cats are great", "dogs are great", "birds fly" and query "cats great",
the scores are 1, 1/2 and 0, and the top result is "cats are great"
(distance 0) ranked strictly before "dogs are great" (distance 1/2). -/
theorem claim_C5_flat_file_ranking :
    keywordScore (splitWs (lowerStr (strCodes "cats great")))
      (lowerStr (strCodes "cats are great")) = 1 ∧
    keywordScore (splitWs (lowerStr (strCodes "cats great")))
      (lowerStr (strCodes "dogs are great")) = 1 / 2 ∧
    keywordScore (splitWs (lowerStr (strCodes "cats great")))
      (lowerStr (strCodes "birds fly")) = 0 ∧
    FileBasedVectorStore.queryDocuments
      ⟨some [⟨strCodes "1", strCodes "cats are great", none⟩,
             ⟨strCodes "2", strCodes "dogs are great", none⟩,
             ⟨strCodes "3", strCodes "birds fly", none⟩], false, false⟩
      (strCodes "cats great") 4 =
    ⟨[strCodes "cats are great", strCodes "dogs are great", strCodes "birds fly"],
     [[], [], []], [0, 1 / 2, 1]⟩ := by
  refine ⟨by decide, by decide, by decide, by decide⟩

/-- C1 counterexample: for a collection of 3 documents none containing the
single query word, `queryDocuments(query, 2)` returns 2 documents whose
distances are both 1, not 0.7 as the claim states: the zero-score
documents survive the ranking (`results` is non-empty), so the
0.3-placeholder branch is never reached. -/
theorem claim_C1_counterexample :
    (FileBasedVectorStore.queryDocuments
      ⟨some [⟨strCodes "1", strCodes "aaa", none⟩,
             ⟨strCodes "2", strCodes "bbb", none⟩,
             ⟨strCodes "3", strCodes "ccc", none⟩], false, false⟩
      (strCodes "zzz") 2).distances = [1, 1] ∧
    ¬ (FileBasedVectorStore.queryDocuments
      ⟨some [⟨strCodes "1", strCodes "aaa", none⟩,
             ⟨strCodes "2", strCodes "bbb", none⟩,
             ⟨strCodes "3", strCodes "ccc", none⟩], false, false⟩
      (strCodes "zzz") 2).distances = [(7 : ℚ) / 10, 7 / 10] := by
  refine ⟨by decide, by decide⟩

end RatEval

/-- C1 amended: when no document contains any query word, every document
scores 0, the stable sort preserves storage order, and `queryDocuments`
returns the first `nResults` documents in storage order — but each with
score 0, hence reported distance 1 (the fixed 0.3/0.7 placeholder branch
of the source is unreachable whenever the collection is non-empty and
`nResults ≥ 1`, because the zero-score documents already fill the result
slice). -/
theorem claim_C1_amended (docs : List Document) (mk wf : Bool) (q : Str)
    (n : Nat)
    (hnone : ∀ d ∈ docs, ∀ w ∈ splitWs (lowerStr q),
      includesB (lowerStr d.text) w = false) :
    FileBasedVectorStore.queryDocuments ⟨some docs, mk, wf⟩ q n =
      ⟨(docs.take n).map (fun d => d.text),
       (docs.take n).map (fun d => d.metadata.getD []),
       (docs.take n).map (fun _ => 1)⟩ := by
  have hscore : docs.map
      (fun doc => (doc, keywordScore (splitWs (lowerStr q)) (lowerStr doc.text))) =
      docs.map (fun doc => (doc, (0 : ℚ))) := by
    apply List.map_congr_left
    intro d hdm
    rw [keywordScore_eq_zero (fun w hw => hnone d hdm w hw)]
  have hsort : sortByScoreDesc (docs.map fun doc => (doc, (0 : ℚ))) =
      docs.map (fun doc => (doc, (0 : ℚ))) :=
    sortByScoreDesc_const 0 (docs.map fun doc => (doc, (0 : ℚ)))
      (by intro p hp; rcases List.mem_map.mp hp with ⟨d, _, rfl⟩; rfl)
  have htake : (docs.map fun doc => (doc, (0 : ℚ))).take n =
      (docs.take n).map (fun doc => (doc, (0 : ℚ))) := (List.map_take ..).symm
  simp only [FileBasedVectorStore.queryDocuments, FileBasedVectorStore.loadDocuments,
    Option.getD_some, hscore, hsort, htake]
  cases hd : docs with
  | nil => simp [emptySearchResult]
  | cons d0 rest =>
    rw [if_neg (by simp)]
    cases ht : (d0 :: rest).take n with
    | nil => simp [ht]
    | cons t0 trest =>
      rw [if_neg (by simp [ht])]
      simp [ht, Function.comp_def, sub_zero, List.map_const']

/-- C4 counterexample: with a failing file write, `addDocuments` and
`clearCollection` both resolve successfully (no error is surfaced to the
caller) even though nothing was persisted — the write failure is caught
and only logged inside `saveDocuments`. -/
theorem claim_C4_counterexample :
    (FileBasedVectorStore.addDocuments
      ⟨some [⟨strCodes "1", strCodes "old", none⟩], false, true⟩
      [⟨strCodes "2", strCodes "new", none⟩]).2 = Except.ok () ∧
    (FileBasedVectorStore.addDocuments
      ⟨some [⟨strCodes "1", strCodes "old", none⟩], false, true⟩
      [⟨strCodes "2", strCodes "new", none⟩]).1.stored =
      some [⟨strCodes "1", strCodes "old", none⟩] ∧
    (FileBasedVectorStore.clearCollection
      ⟨some [⟨strCodes "1", strCodes "old", none⟩], false, true⟩).2 =
      Except.ok () ∧
    (FileBasedVectorStore.clearCollection
      ⟨some [⟨strCodes "1", strCodes "old", none⟩], false, true⟩).1.stored =
      some [⟨strCodes "1", strCodes "old", none⟩] := by
  refine ⟨by decide, by decide, by decide, by decide⟩

/-- C4 amended: in the flat-file backend only `init` surfaces a
directory-creation failure; `addDocuments` and `clearCollection` always
resolve successfully because `saveDocuments` catches and merely logs any
mkdir or write failure, leaving the stored file unchanged. -/
theorem claim_C4_amended (fs : FileFS) (docs : List Document) :
    (FileBasedVectorStore.addDocuments fs docs).2 = Except.ok () ∧
    (FileBasedVectorStore.clearCollection fs).2 = Except.ok () ∧
    (fs.mkdirFails = true →
      FileBasedVectorStore.init fs = Except.error "mkdir failed") ∧
    (fs.mkdirFails = false →
      FileBasedVectorStore.init fs = Except.ok ()) := by
  refine ⟨?_, ?_, ?_, ?_⟩
  · unfold FileBasedVectorStore.addDocuments FileBasedVectorStore.saveDocuments
    split <;> rfl
  · unfold FileBasedVectorStore.clearCollection FileBasedVectorStore.saveDocuments
    split <;> rfl
  · intro h; unfold FileBasedVectorStore.init; rw [if_pos h]
  · intro h; unfold FileBasedVectorStore.init; rw [if_neg (by simp [h])]

/-- C4 witness: the amended statement at a concrete state with a working
file system. -/
theorem claim_C4_witness :
    (FileBasedVectorStore.addDocuments ⟨none, false, false⟩
      [⟨strCodes "1", strCodes "x", none⟩]).2 = Except.ok () ∧
    FileBasedVectorStore.init ⟨none, false, false⟩ = Except.ok () := by
  refine ⟨(claim_C4_amended ⟨none, false, false⟩
    [⟨strCodes "1", strCodes "x", none⟩]).1, ?_⟩
  exact (claim_C4_amended ⟨none, false, false⟩ []).2.2.2 rfl

/-- C1 witness: the amended statement at the concrete three-document
collection with a query word occurring in none of them. -/
theorem claim_C1_witness :
    (∀ d ∈ [(⟨strCodes "1", strCodes "aaa", none⟩ : Document),
            ⟨strCodes "2", strCodes "bbb", none⟩,
            ⟨strCodes "3", strCodes "ccc", none⟩],
      ∀ w ∈ splitWs (lowerStr (strCodes "zzz")),
        includesB (lowerStr d.text) w = false) ∧
    FileBasedVectorStore.queryDocuments
      ⟨some [⟨strCodes "1", strCodes "aaa", none⟩,
             ⟨strCodes "2", strCodes "bbb", none⟩,
             ⟨strCodes "3", strCodes "ccc", none⟩], false, false⟩
      (strCodes "zzz") 2 =
    ⟨([(⟨strCodes "1", strCodes "aaa", none⟩ : Document),
       ⟨strCodes "2", strCodes "bbb", none⟩,
       ⟨strCodes "3", strCodes "ccc", none⟩].take 2).map (fun d => d.text),
     ([(⟨strCodes "1", strCodes "aaa", none⟩ : Document),
       ⟨strCodes "2", strCodes "bbb", none⟩,
       ⟨strCodes "3", strCodes "ccc", none⟩].take 2).map
        (fun d => d.metadata.getD []),
     ([(⟨strCodes "1", strCodes "aaa", none⟩ : Document),
       ⟨strCodes "2", strCodes "bbb", none⟩,
       ⟨strCodes "3", strCodes "ccc", none⟩].take 2).map (fun _ => 1)⟩ :=
  ⟨by decide,
   claim_C1_amended
     [⟨strCodes "1", strCodes "aaa", none⟩,
      ⟨strCodes "2", strCodes "bbb", none⟩,
      ⟨strCodes "3", strCodes "ccc", none⟩] false false
     (strCodes "zzz") 2 (by decide)⟩

/-! ## Claim theorems about the store factory -/

/-- C2 counterexample: with the Chroma backend configured and its
heartbeat failing (so its `healthCheck()` returns `false`), `getInstance`
FAILS: `ChromaDBVectorStore.init` itself runs the health check and throws,
and the factory does not catch `init()` rejections — the file-store
fallback is never reached, contradicting the claim that the call cannot
fail. -/
theorem claim_C2_counterexample :
    healthOutcome
      ⟨VectorStoreType.chroma, false, true, true, true, true, true, true⟩
      VectorStoreType.chroma = false ∧
    VectorStoreType.chroma ≠ VectorStoreType.file ∧
    (VectorStoreFactory.getInstance
      ⟨VectorStoreType.chroma, false, true, true, true, true, true, true⟩
      none VectorStoreFactory.initialState).1 =
      Except.error "init failed" := by
  refine ⟨rfl, by decide, rfl⟩

/-- C2 amended: the factory's own health-check step is indeed never fatal:
for a configured non-file backend whose `init()` succeeds but whose
`healthCheck()` then returns `false`, `getInstance` returns a working
file-backend instance (with the default collection name when no
configuration is given) and only a warning is logged.  But when the
backend's `init()` itself rejects — as Chroma's does whenever its health
check fails — the error propagates to the caller. -/
theorem claim_C2_amended (e : FactoryEnv) (cfg : Option Str)
    (ht : e.configured ≠ VectorStoreType.file)
    (hinit : initOutcome e e.configured = true)
    (hhealth : healthOutcome e e.configured = false)
    (hfile : e.fileMkdirOk = true) :
    (VectorStoreFactory.getInstance e cfg VectorStoreFactory.initialState).1 =
      Except.ok (VectorStoreFactory.create VectorStoreType.file cfg) ∧
    (VectorStoreFactory.create VectorStoreType.file cfg).type =
      VectorStoreType.file ∧
    (VectorStoreFactory.create VectorStoreType.file none).collectionName =
      strCodes "clonewriter" := by
  refine ⟨?_, rfl, rfl⟩
  simp only [VectorStoreFactory.getInstance, VectorStoreFactory.initialState,
    VectorStoreFactory.resolve, hinit, hhealth]
  have hfileInit : initOutcome e VectorStoreType.file = true := hfile
  simp [hfileInit]

/-- C2 witness: a Redis configuration that connects (so `init()`
succeeds) but whose `PING` fails makes the factory fall back to the file
store. -/
theorem claim_C2_witness :
    (VectorStoreType.redis ≠ VectorStoreType.file ∧
      initOutcome ⟨VectorStoreType.redis, true, true, true, false, true, true, true⟩
        VectorStoreType.redis = true ∧
      healthOutcome ⟨VectorStoreType.redis, true, true, true, false, true, true, true⟩
        VectorStoreType.redis = false) ∧
    (VectorStoreFactory.getInstance
      ⟨VectorStoreType.redis, true, true, true, false, true, true, true⟩
      none VectorStoreFactory.initialState).1 =
      Except.ok (VectorStoreFactory.create VectorStoreType.file none) :=
  ⟨⟨by decide, rfl, rfl⟩,
   (claim_C2_amended
     ⟨VectorStoreType.redis, true, true, true, false, true, true, true⟩
     none (by decide) rfl rfl rfl).1⟩

/-- C10: the degraded state does not persist.  After a fallback the cache
holds a file-typed instance while a non-file type is configured, so the
very next `getInstance` call detects the type mismatch, discards the file
instance, and re-runs the entire resolution sequence exactly as from the
initial state — in particular, when the configured backend now initializes
and passes its health check, the call returns a brand-new instance of the
originally configured type. -/
theorem claim_C10_fallback_not_sticky (e : FactoryEnv) (cfg : Option Str)
    (fileInst : StoreInstance)
    (h : e.configured ≠ VectorStoreType.file) :
    VectorStoreFactory.getInstance e cfg
        ⟨some fileInst, some VectorStoreType.file⟩ =
      VectorStoreFactory.getInstance e cfg VectorStoreFactory.initialState ∧
    VectorStoreFactory.getInstance e cfg
        ⟨some fileInst, some VectorStoreType.file⟩ =
      VectorStoreFactory.resolve e cfg e.configured ∧
    (initOutcome e e.configured = true → healthOutcome e e.configured = true →
      (VectorStoreFactory.getInstance e cfg
        ⟨some fileInst, some VectorStoreType.file⟩).1 =
        Except.ok (VectorStoreFactory.create e.configured cfg)) := by
  have hne : ¬ (some VectorStoreType.file = some e.configured) := fun hcontra =>
    h (Option.some.inj hcontra).symm
  refine ⟨?_, ?_, ?_⟩
  · simp [VectorStoreFactory.getInstance, VectorStoreFactory.initialState, hne]
  · simp [VectorStoreFactory.getInstance, hne]
  · intro hinit hhealth
    simp [VectorStoreFactory.getInstance, hne, VectorStoreFactory.resolve,
      hinit, hhealth]

/-- C10 witness: with Redis configured and fully healthy, a post-fallback
state (file instance cached) is replaced by a fresh Redis instance on the
next call. -/
theorem claim_C10_witness :
    (VectorStoreType.redis ≠ VectorStoreType.file) ∧
    (VectorStoreFactory.getInstance
      ⟨VectorStoreType.redis, true, true, true, true, true, true, true⟩
      none
      ⟨some (VectorStoreFactory.create VectorStoreType.file none),
       some VectorStoreType.file⟩).1 =
      Except.ok (VectorStoreFactory.create VectorStoreType.redis none) :=
  ⟨by decide,
   (claim_C10_fallback_not_sticky
     ⟨VectorStoreType.redis, true, true, true, true, true, true, true⟩
     none (VectorStoreFactory.create VectorStoreType.file none)
     (by decide)).2.2 rfl rfl⟩

/-! ## Claim theorems about the Redis backend -/

section RatEval2
attribute [local semireducible] Rat.add Rat.mul Rat.inv Rat.sub

/-- C3 counterexample: when the KNN query fails over a two-document
collection where only the first document contains the query word, the
Redis keyword fallback reports distances 0 and 1 — per-match values of
`1 - score`, ranked best-first — not the fixed 0.5 for every match that
the claim states (that behavior belongs to the MariaDB fallback). -/
theorem claim_C3_counterexample :
    RedisVectorStore.queryDocuments (Except.error "knn failed")
      [⟨strCodes "1", strCodes "cats", none⟩,
       ⟨strCodes "2", strCodes "dogs", none⟩]
      (strCodes "cats") 2 =
    ⟨[strCodes "cats", strCodes "dogs"], [[], []], [0, 1]⟩ ∧
    ¬ (RedisVectorStore.queryDocuments (Except.error "knn failed")
      [⟨strCodes "1", strCodes "cats", none⟩,
       ⟨strCodes "2", strCodes "dogs", none⟩]
      (strCodes "cats") 2).distances = [(1 : ℚ) / 2, 1 / 2] := by
  refine ⟨by decide, by decide⟩

end RatEval2

/-- C3 amended: whenever the KNN vector query fails, the Redis backend
does not propagate the error but falls back to the linear keyword scan
with the substring-overlap scoring; the fallback ranks matches descending
by score and assigns each match its own distance `1 - score` (not a fixed
0.5, and with a ranking distinction between matches). -/
theorem claim_C3_amended (msg : String) (kv : RedisVectorStore.KV) (q : Str)
    (n : Nat) :
    RedisVectorStore.queryDocuments (Except.error msg) kv q n =
      RedisVectorStore.keywordSearch kv q n ∧
    ∃ pairs : List (Document × ℚ),
      (∀ p ∈ pairs, p.1 ∈ kv ∧
        p.2 = keywordScore (splitWs (lowerStr q)) (lowerStr p.1.text)) ∧
      List.Sorted byScoreDesc pairs ∧
      (RedisVectorStore.keywordSearch kv q n).documents =
        pairs.map (fun p => p.1.text) ∧
      (RedisVectorStore.keywordSearch kv q n).metadatas =
        pairs.map (fun p => p.1.metadata.getD []) ∧
      (RedisVectorStore.keywordSearch kv q n).distances =
        pairs.map (fun p => 1 - p.2) := by
  refine ⟨rfl, ⟨(sortByScoreDesc (kv.map fun d =>
    (d, keywordScore (splitWs (lowerStr q)) (lowerStr d.text)))).take n,
    ?_, ?_, ?_, ?_, ?_⟩⟩
  · intro p hp
    have hmem := mem_sortByScoreDesc.mp (List.mem_of_mem_take hp)
    rcases List.mem_map.mp hmem with ⟨d, hd, rfl⟩
    exact ⟨hd, rfl⟩
  · exact (sorted_sortByScoreDesc _).sublist (List.take_sublist ..)
  · simp only [RedisVectorStore.keywordSearch]
  · simp only [RedisVectorStore.keywordSearch]
  · simp only [RedisVectorStore.keywordSearch]

/-- C3 witness: the amended statement at the concrete two-document
collection used by the counterexample. -/
theorem claim_C3_witness :
    RedisVectorStore.queryDocuments (Except.error "knn failed")
      [⟨strCodes "1", strCodes "cats", none⟩,
       ⟨strCodes "2", strCodes "dogs", none⟩] (strCodes "cats") 2 =
      RedisVectorStore.keywordSearch
        [⟨strCodes "1", strCodes "cats", none⟩,
         ⟨strCodes "2", strCodes "dogs", none⟩] (strCodes "cats") 2 :=
  (claim_C3_amended "knn failed"
    [⟨strCodes "1", strCodes "cats", none⟩,
     ⟨strCodes "2", strCodes "dogs", none⟩] (strCodes "cats") 2).1

/-! ## Claim theorem for the clear-then-query round trip -/

/-- C7: for every backend, adding documents, clearing the collection, and
then querying returns the empty result: the flat-file backend (under
working directory creation and file writes) persists the empty array and
the query's empty-corpus guard returns the empty result; the Redis and
MariaDB backends delete all stored rows, so both the engine reply (which
can only draw on stored rows, hence is empty) and the keyword fallback
produce the empty result; the Chroma backend recreates an empty collection
and flattens an empty or missing server reply to the empty result. -/
theorem claim_C7_clear_then_query :
    (∀ (fs : FileFS) (docs : List Document) (q : Str) (n : Nat),
      fs.mkdirFails = false → fs.writeFails = false →
      FileBasedVectorStore.queryDocuments
        (FileBasedVectorStore.clearCollection
          (FileBasedVectorStore.addDocuments fs docs).1).1 q n =
        emptySearchResult) ∧
    (∀ (kv docs : RedisVectorStore.KV) (q : Str) (n : Nat)
        (knn : Except String (List RedisVectorStore.KnnRow)),
      (∀ rows, knn = Except.ok rows → rows = []) →
      RedisVectorStore.queryDocuments knn
        (RedisVectorStore.clearCollection
          (RedisVectorStore.addDocuments kv docs)).1 q n =
        emptySearchResult) ∧
    (∀ (s : MariaDBVectorStore.MariaState) (docs : List Document) (q : Str)
        (n : Nat) (vq : Except String (List (Str × Meta × ℚ))),
      (∀ rows, vq = Except.ok rows → rows = []) →
      (MariaDBVectorStore.queryDocuments vq
        (MariaDBVectorStore.clearCollection
          (MariaDBVectorStore.addDocuments s docs)) q n).1 =
        emptySearchResult) ∧
    (∀ c : ChromaDBVectorStore.ChromaCollection,
      ChromaDBVectorStore.clearCollection c = [] ∧
      ChromaDBVectorStore.flattenQueryResult none none none =
        emptySearchResult ∧
      ChromaDBVectorStore.flattenQueryResult (some []) (some []) (some []) =
        emptySearchResult) := by
  refine ⟨?_, ?_, ?_, ?_⟩
  · intro fs docs q n hm hw
    simp [FileBasedVectorStore.queryDocuments, FileBasedVectorStore.clearCollection,
      FileBasedVectorStore.addDocuments, FileBasedVectorStore.saveDocuments,
      FileBasedVectorStore.loadDocuments, hm, hw]
  · intro kv docs q n knn h
    cases hk : knn with
    | ok rows =>
      have : rows = [] := h rows hk
      subst this
      rfl
    | error msg =>
      show RedisVectorStore.keywordSearch [] q n = emptySearchResult
      simp [RedisVectorStore.keywordSearch, sortByScoreDesc, emptySearchResult]
  · intro s docs q n vq h
    cases hv : vq with
    | ok rows =>
      have : rows = [] := h rows hv
      subst this
      rfl
    | error msg =>
      show MariaDBVectorStore.keywordSearch
        (MariaDBVectorStore.clearCollection
          (MariaDBVectorStore.addDocuments s docs)) q n = emptySearchResult
      simp [MariaDBVectorStore.keywordSearch, MariaDBVectorStore.clearCollection,
        MariaDBVectorStore.addDocuments, emptySearchResult]
  · intro c
    exact ⟨rfl, rfl, rfl⟩

/-- C7 witness: the round trip at concrete states for each backend, with
the engine replies instantiated to concrete failing or empty values. -/
theorem claim_C7_witness :
    FileBasedVectorStore.queryDocuments
      (FileBasedVectorStore.clearCollection
        (FileBasedVectorStore.addDocuments ⟨none, false, false⟩
          [⟨strCodes "1", strCodes "a", none⟩,
           ⟨strCodes "2", strCodes "b", none⟩,
           ⟨strCodes "3", strCodes "c", none⟩]).1).1
      (strCodes "anything") 4 = emptySearchResult ∧
    RedisVectorStore.queryDocuments (Except.error "down")
      (RedisVectorStore.clearCollection
        (RedisVectorStore.addDocuments []
          [⟨strCodes "1", strCodes "a", none⟩])).1
      (strCodes "anything") 4 = emptySearchResult ∧
    (MariaDBVectorStore.queryDocuments (Except.ok [])
      (MariaDBVectorStore.clearCollection
        (MariaDBVectorStore.addDocuments
          ⟨MariaDBVectorStore.TableLayout.jsonColumn, []⟩
          [⟨strCodes "1", strCodes "a", none⟩]))
      (strCodes "anything") 4).1 = emptySearchResult :=
  ⟨claim_C7_clear_then_query.1 ⟨none, false, false⟩
    [⟨strCodes "1", strCodes "a", none⟩,
     ⟨strCodes "2", strCodes "b", none⟩,
     ⟨strCodes "3", strCodes "c", none⟩] (strCodes "anything") 4 rfl rfl,
   claim_C7_clear_then_query.2.1 [] [⟨strCodes "1", strCodes "a", none⟩]
    (strCodes "anything") 4 (Except.error "down") (by intro rows h; cases h),
   claim_C7_clear_then_query.2.2.1
    ⟨MariaDBVectorStore.TableLayout.jsonColumn, []⟩
    [⟨strCodes "1", strCodes "a", none⟩] (strCodes "anything") 4
    (Except.ok []) (by intro rows h; cases h; rfl)⟩

/-! ## Result-shape lemmas -/

/-- Shape of the flat-file query result: it is the three parallel
projections of one list of (document, score) pairs drawn from storage,
whose length is `min nResults (stored count)`. -/
theorem fileQuery_shape (fs : FileFS) (q : Str) (n : Nat) :
    ∃ pairs : List (Document × ℚ),
      (∀ p ∈ pairs, p.1 ∈ FileBasedVectorStore.loadDocuments fs) ∧
      pairs.length = min n (FileBasedVectorStore.loadDocuments fs).length ∧
      FileBasedVectorStore.queryDocuments fs q n =
        ⟨pairs.map (fun p => p.1.text),
         pairs.map (fun p => p.1.metadata.getD []),
         pairs.map (fun p => 1 - p.2)⟩ := by
  by_cases hM : (FileBasedVectorStore.loadDocuments fs).isEmpty
  · refine ⟨[], by simp, ?_, ?_⟩
    · rw [List.isEmpty_iff.mp hM]
      simp
    · simp only [FileBasedVectorStore.queryDocuments]
      rw [if_pos hM]
      rfl
  · by_cases hres : ((sortByScoreDesc
        ((FileBasedVectorStore.loadDocuments fs).map fun doc =>
          (doc, keywordScore (splitWs (lowerStr q)) (lowerStr doc.text)))).take
            n).isEmpty
    · refine ⟨((FileBasedVectorStore.loadDocuments fs).take n).map
        (fun doc => (doc, (3 : ℚ) / 10)), ?_, ?_, ?_⟩
      · intro p hp
        rcases List.mem_map.mp hp with ⟨d, hd, rfl⟩
        exact List.mem_of_mem_take hd
      · rw [List.length_map, List.length_take]
      · simp only [FileBasedVectorStore.queryDocuments]
        rw [if_neg (by simp [hM]), if_pos hres]
    · refine ⟨(sortByScoreDesc
        ((FileBasedVectorStore.loadDocuments fs).map fun doc =>
          (doc, keywordScore (splitWs (lowerStr q)) (lowerStr doc.text)))).take n,
        ?_, ?_, ?_⟩
      · intro p hp
        have hmem := mem_sortByScoreDesc.mp (List.mem_of_mem_take hp)
        rcases List.mem_map.mp hmem with ⟨d, hd, rfl⟩
        exact hd
      · rw [List.length_take, length_sortByScoreDesc, List.length_map]
      · simp only [FileBasedVectorStore.queryDocuments]
        rw [if_neg (by simp [hM]), if_neg hres]

/-- Shape of the Redis keyword fallback: the three parallel projections of
one list of (document, score) pairs drawn from the stored keys, of length
`min nResults (key count)`. -/
theorem redisKeyword_shape (kv : RedisVectorStore.KV) (q : Str) (n : Nat) :
    ∃ pairs : List (Document × ℚ),
      (∀ p ∈ pairs, p.1 ∈ kv) ∧
      pairs.length = min n kv.length ∧
      RedisVectorStore.keywordSearch kv q n =
        ⟨pairs.map (fun p => p.1.text),
         pairs.map (fun p => p.1.metadata.getD []),
         pairs.map (fun p => 1 - p.2)⟩ := by
  refine ⟨(sortByScoreDesc (kv.map fun d =>
    (d, keywordScore (splitWs (lowerStr q)) (lowerStr d.text)))).take n,
    ?_, ?_, ?_⟩
  · intro p hp
    have hmem := mem_sortByScoreDesc.mp (List.mem_of_mem_take hp)
    rcases List.mem_map.mp hmem with ⟨d, hd, rfl⟩
    exact hd
  · rw [List.length_take, length_sortByScoreDesc, List.length_map]
  · simp only [RedisVectorStore.keywordSearch]

/-- Shape of the MariaDB keyword fallback: the three parallel projections
of the first `nResults` rows matching the LIKE predicate, with the fixed
distance 1/2. -/
theorem mariaKeyword_shape (s : MariaDBVectorStore.MariaState) (q : Str)
    (n : Nat) :
    ∃ rows : List Document,
      (∀ d ∈ rows, d ∈ s.rows ∧
        MariaDBVectorStore.likeMatches (splitWs (lowerStr q)) d = true) ∧
      rows.length =
        min n (s.rows.filter
          (fun d => MariaDBVectorStore.likeMatches (splitWs (lowerStr q)) d)).length ∧
      MariaDBVectorStore.keywordSearch s q n =
        ⟨rows.map (fun d => d.text),
         rows.map (fun d => d.metadata.getD []),
         rows.map (fun _ => (1 : ℚ) / 2)⟩ := by
  refine ⟨(s.rows.filter
    (fun d => MariaDBVectorStore.likeMatches (splitWs (lowerStr q)) d)).take n,
    ?_, ?_, ?_⟩
  · intro d hd
    have hmem := List.mem_of_mem_take hd
    exact ⟨List.mem_of_mem_filter hmem, List.of_mem_filter hmem⟩
  · rw [List.length_take]
  · simp only [MariaDBVectorStore.keywordSearch]

/-- C8: for each backend the result's three sequences are parallel
projections of one underlying row list (so index i refers to one
document across all three), their common length is
`min nResults available` for the locally computed paths, and it never
exceeds `nResults`; for the engine-computed paths (Redis KNN rows, MariaDB
vector rows, Chroma reply arrays) the three sequences all have the
engine-reply length, which is at most `nResults` whenever the engine
honors its row limit. -/
theorem claim_C8_result_shape :
    (∀ (fs : FileFS) (q : Str) (n : Nat),
      ((FileBasedVectorStore.queryDocuments fs q n).documents.length =
        min n (FileBasedVectorStore.loadDocuments fs).length ∧
       (FileBasedVectorStore.queryDocuments fs q n).metadatas.length =
        (FileBasedVectorStore.queryDocuments fs q n).documents.length ∧
       (FileBasedVectorStore.queryDocuments fs q n).distances.length =
        (FileBasedVectorStore.queryDocuments fs q n).documents.length) ∧
      ∃ pairs : List (Document × ℚ),
        (∀ p ∈ pairs, p.1 ∈ FileBasedVectorStore.loadDocuments fs) ∧
        (FileBasedVectorStore.queryDocuments fs q n).documents =
          pairs.map (fun p => p.1.text) ∧
        (FileBasedVectorStore.queryDocuments fs q n).metadatas =
          pairs.map (fun p => p.1.metadata.getD []) ∧
        (FileBasedVectorStore.queryDocuments fs q n).distances =
          pairs.map (fun p => 1 - p.2)) ∧
    (∀ (kv : RedisVectorStore.KV) (q : Str) (n : Nat),
      (RedisVectorStore.keywordSearch kv q n).documents.length =
        min n kv.length ∧
      (RedisVectorStore.keywordSearch kv q n).metadatas.length =
        (RedisVectorStore.keywordSearch kv q n).documents.length ∧
      (RedisVectorStore.keywordSearch kv q n).distances.length =
        (RedisVectorStore.keywordSearch kv q n).documents.length) ∧
    (∀ (s : MariaDBVectorStore.MariaState) (q : Str) (n : Nat),
      (MariaDBVectorStore.keywordSearch s q n).documents.length =
        min n (s.rows.filter
          (fun d => MariaDBVectorStore.likeMatches (splitWs (lowerStr q)) d)).length ∧
      (MariaDBVectorStore.keywordSearch s q n).metadatas.length =
        (MariaDBVectorStore.keywordSearch s q n).documents.length ∧
      (MariaDBVectorStore.keywordSearch s q n).distances.length =
        (MariaDBVectorStore.keywordSearch s q n).documents.length) ∧
    (∀ (rows : List RedisVectorStore.KnnRow) (kv : RedisVectorStore.KV)
        (q : Str) (n : Nat), rows.length ≤ n →
      (RedisVectorStore.queryDocuments (Except.ok rows) kv q n).documents.length
          = rows.length ∧
      (RedisVectorStore.queryDocuments (Except.ok rows) kv q n).metadatas.length
          = rows.length ∧
      (RedisVectorStore.queryDocuments (Except.ok rows) kv q n).distances.length
          = rows.length ∧
      (RedisVectorStore.queryDocuments (Except.ok rows) kv q n).documents.length
          ≤ n) ∧
    (∀ (rows : List (Str × Meta × ℚ)) (s : MariaDBVectorStore.MariaState)
        (q : Str) (n : Nat), rows.length ≤ n →
      ((MariaDBVectorStore.queryDocuments (Except.ok rows) s q n).1).documents.length
          = rows.length ∧
      ((MariaDBVectorStore.queryDocuments (Except.ok rows) s q n).1).metadatas.length
          = rows.length ∧
      ((MariaDBVectorStore.queryDocuments (Except.ok rows) s q n).1).distances.length
          = rows.length ∧
      ((MariaDBVectorStore.queryDocuments (Except.ok rows) s q n).1).documents.length
          ≤ n) ∧
    (∀ (dl : List Str) (ml : List Meta) (sl : List ℚ) (n : Nat),
      dl.length = ml.length → ml.length = sl.length → dl.length ≤ n →
      (ChromaDBVectorStore.flattenQueryResult (some dl) (some ml) (some sl)).documents.length
          = dl.length ∧
      (ChromaDBVectorStore.flattenQueryResult (some dl) (some ml) (some sl)).metadatas.length
          = dl.length ∧
      (ChromaDBVectorStore.flattenQueryResult (some dl) (some ml) (some sl)).distances.length
          = dl.length ∧
      (ChromaDBVectorStore.flattenQueryResult (some dl) (some ml) (some sl)).documents.length
          ≤ n) := by
  refine ⟨?_, ?_, ?_, ?_, ?_, ?_⟩
  · intro fs q n
    rcases fileQuery_shape fs q n with ⟨pairs, hmem, hlen, heq⟩
    rw [heq]
    exact ⟨⟨by simp [hlen], by simp, by simp⟩,
      ⟨pairs, hmem, rfl, rfl, rfl⟩⟩
  · intro kv q n
    rcases redisKeyword_shape kv q n with ⟨pairs, _, hlen, heq⟩
    rw [heq]
    exact ⟨by simp [hlen], by simp, by simp⟩
  · intro s q n
    rcases mariaKeyword_shape s q n with ⟨rows, _, hlen, heq⟩
    rw [heq]
    exact ⟨by simp [hlen], by simp, by simp⟩
  · intro rows kv q n hle
    exact ⟨by simp [RedisVectorStore.queryDocuments],
      by simp [RedisVectorStore.queryDocuments],
      by simp [RedisVectorStore.queryDocuments],
      by simpa [RedisVectorStore.queryDocuments] using hle⟩
  · intro rows s q n hle
    exact ⟨by simp [MariaDBVectorStore.queryDocuments],
      by simp [MariaDBVectorStore.queryDocuments],
      by simp [MariaDBVectorStore.queryDocuments],
      by simpa [MariaDBVectorStore.queryDocuments] using hle⟩
  · intro dl ml sl n h1 h2 hle
    exact ⟨rfl, by simp [ChromaDBVectorStore.flattenQueryResult, h1],
      by simp [ChromaDBVectorStore.flattenQueryResult, h1, h2],
      by simpa [ChromaDBVectorStore.flattenQueryResult] using hle⟩

/-- C8 witness: the shape invariant at concrete inputs, engine replies
included. -/
theorem claim_C8_witness :
    (FileBasedVectorStore.queryDocuments
      ⟨some [⟨strCodes "1", strCodes "aaa", none⟩], false, false⟩
      (strCodes "q") 3).documents.length =
      min 3 (FileBasedVectorStore.loadDocuments
        ⟨some [⟨strCodes "1", strCodes "aaa", none⟩], false, false⟩).length ∧
    ((1 : Nat) ≤ 4 ∧
      (RedisVectorStore.queryDocuments
        (Except.ok [(strCodes "aaa", [], 0)]) [] (strCodes "q") 4).documents.length
        = 1) :=
  ⟨((claim_C8_result_shape.1
      ⟨some [⟨strCodes "1", strCodes "aaa", none⟩], false, false⟩
      (strCodes "q") 3).1).1,
   ⟨by decide,
    ((claim_C8_result_shape.2.2.2.1 [(strCodes "aaa", [], 0)] [] (strCodes "q") 4)
      (by decide)).1⟩⟩

/-! ## Claim theorem about the MariaDB version gate -/

/-- C9: the MariaDB table layout is decided by parsing the engine version
string as major.minor: the native vector column with ANN index is chosen
exactly when major > 11, or major = 11 and minor ≥ 6; an unparsable
version string selects the JSON fallback layout.  The decision is made by
`createTableIfNotExists` during initialization and is never revisited:
query, add and clear leave the layout untouched (and never consult the
version). -/
theorem claim_C9_version_gate :
    (∀ v : Str, MariaDBVectorStore.checkVectorSupport v = true ↔
      ∃ mjr mnr, MariaDBVectorStore.parseVersion v = some (mjr, mnr) ∧
        (11 < mjr ∨ (mjr = 11 ∧ 6 ≤ mnr))) ∧
    (∀ v : Str, MariaDBVectorStore.parseVersion v = none →
      MariaDBVectorStore.createTableIfNotExists v =
        MariaDBVectorStore.TableLayout.jsonColumn) ∧
    (∀ v : Str, MariaDBVectorStore.createTableIfNotExists v =
        MariaDBVectorStore.TableLayout.vectorColumn ↔
      MariaDBVectorStore.checkVectorSupport v = true) ∧
    (∀ v : Str, (MariaDBVectorStore.init v).layout =
      MariaDBVectorStore.createTableIfNotExists v) ∧
    (∀ (vq : Except String (List (Str × Meta × ℚ)))
        (s : MariaDBVectorStore.MariaState) (q : Str) (n : Nat),
      ((MariaDBVectorStore.queryDocuments vq s q n).2).layout = s.layout) ∧
    (∀ (s : MariaDBVectorStore.MariaState) (docs : List Document),
      (MariaDBVectorStore.addDocuments s docs).layout = s.layout) ∧
    (∀ s : MariaDBVectorStore.MariaState,
      (MariaDBVectorStore.clearCollection s).layout = s.layout) := by
  refine ⟨?_, ?_, ?_, fun _ => rfl, ?_, fun _ _ => rfl, fun _ => rfl⟩
  · intro v
    unfold MariaDBVectorStore.checkVectorSupport
    cases hp : MariaDBVectorStore.parseVersion v with
    | none => simp [hp]
    | some pr =>
      cases pr with
      | mk a b =>
        simp only [hp, Option.some.injEq, Prod.mk.injEq]
        constructor
        · intro h
          refine ⟨a, b, ⟨rfl, rfl⟩, ?_⟩
          simpa using h
        · rintro ⟨mj, mn, ⟨rfl, rfl⟩, h⟩
          simpa using h
  · intro v h
    simp [MariaDBVectorStore.createTableIfNotExists,
      MariaDBVectorStore.checkVectorSupport, h]
  · intro v
    unfold MariaDBVectorStore.createTableIfNotExists
    by_cases h : MariaDBVectorStore.checkVectorSupport v = true
    · simp [h]
    · simp [h]
  · intro vq s q n
    cases vq <;> rfl

/-- C9 witness: the gate at concrete version strings — "11.6.2-MariaDB"
selects the vector layout, and an unparsable version string selects the
JSON fallback layout. -/
theorem claim_C9_witness :
    MariaDBVectorStore.checkVectorSupport (strCodes "11.6.2-MariaDB") = true ∧
    MariaDBVectorStore.createTableIfNotExists (strCodes "garbage") =
      MariaDBVectorStore.TableLayout.jsonColumn :=
  ⟨(claim_C9_version_gate.1 (strCodes "11.6.2-MariaDB")).mpr
    ⟨11, 6, by decide, by decide⟩,
   claim_C9_version_gate.2.1 (strCodes "garbage") (by decide)⟩

/-! ## Lemmas about the embedding function -/

theorem length_addAt (v : List ℚ) (i : Nat) (q : ℚ) :
    (addAt v i q).length = v.length := by
  simp [addAt]

theorem sum_addAt (v : List ℚ) (q : ℚ) :
    ∀ i : Nat, i < v.length → (addAt v i q).sum = v.sum + q := by
  induction v with
  | nil => intro i h; simp at h
  | cons x xs ih =>
    intro i h
    cases i with
    | zero =>
      show ((x :: xs).set 0 ((x :: xs).getD 0 0 + q)).sum = (x :: xs).sum + q
      simp
      ring
    | succ j =>
      have hj : j < xs.length := Nat.lt_of_succ_lt_succ (by simpa using h)
      show ((x :: xs).set (j + 1) ((x :: xs).getD (j + 1) 0 + q)).sum =
        (x :: xs).sum + q
      simp only [List.getD_cons_succ, List.set_cons_succ, List.sum_cons]
      rw [show (xs.set j (xs.getD j 0 + q)).sum = (addAt xs j q).sum from rfl,
        ih j hj]
      ring

theorem length_wordFold (dims idx : Nat) (w : Str) :
    ∀ v : List ℚ,
      (w.foldl (fun u c => addAt u ((c + idx) % dims) ((c : ℚ) / 1000)) v).length =
        v.length := by
  induction w with
  | nil => intro v; rfl
  | cons c cs ih =>
    intro v
    simp only [List.foldl_cons]
    rw [ih, length_addAt]

theorem sum_wordFold (dims : Nat) (hd : 0 < dims) (idx : Nat) (w : Str) :
    ∀ v : List ℚ, v.length = dims →
      (w.foldl (fun u c => addAt u ((c + idx) % dims) ((c : ℚ) / 1000)) v).sum =
        v.sum + (w.map fun c : Nat => (c : ℚ) / 1000).sum := by
  induction w with
  | nil => intro v _; simp
  | cons c cs ih =>
    intro v hlen
    simp only [List.foldl_cons, List.map_cons, List.sum_cons]
    rw [ih _ (by rw [length_addAt]; exact hlen),
      sum_addAt v ((c : ℚ) / 1000) _ (by rw [hlen]; exact Nat.mod_lt _ hd)]
    ring

theorem sum_wordsFold (dims : Nat) (hd : 0 < dims) (ps : List (Nat × Str)) :
    ∀ v : List ℚ, v.length = dims →
      (ps.foldl (fun u iw =>
        iw.2.foldl (fun w c => addAt w ((c + iw.1) % dims) ((c : ℚ) / 1000)) u)
          v).sum =
        v.sum + (ps.map fun iw => (iw.2.map fun c : Nat => (c : ℚ) / 1000).sum).sum := by
  induction ps with
  | nil => intro v _; simp
  | cons p ps ih =>
    intro v hlen
    simp only [List.foldl_cons, List.map_cons, List.sum_cons]
    rw [ih _ (by rw [length_wordFold]; exact hlen),
      sum_wordFold dims hd p.1 p.2 v hlen]
    ring

theorem sum_map_flatten (L : List Str) (f : Nat → ℚ) :
    (L.flatten.map f).sum = (L.map fun w => (w.map f).sum).sum := by
  rw [List.map_flatten, List.sum_flatten, List.map_map]
  rfl

/-- The entries of `simpleTextEmbeddingRaw` sum to the total contribution
of every code unit of every word: charCode/1000 each. -/
theorem sum_simpleTextEmbeddingRaw (t : Str) (dims : Nat) (hd : 0 < dims) :
    (simpleTextEmbeddingRaw t dims).sum =
      ((splitWs (lowerStr t)).flatten.map fun c : Nat => (c : ℚ) / 1000).sum := by
  unfold simpleTextEmbeddingRaw
  rw [sum_wordsFold dims hd _ _ (by simp), sum_map_flatten]
  have henum : ((splitWs (lowerStr t)).enum.map fun iw =>
      ((iw.2).map fun c : Nat => (c : ℚ) / 1000).sum) =
      ((splitWs (lowerStr t)).enum.map Prod.snd).map fun w =>
        (w.map fun c : Nat => (c : ℚ) / 1000).sum := by
    rw [List.map_map]
    rfl
  rw [henum, List.enum_map_snd]
  simp

/-- The tokens of `splitWs` carry exactly the non-whitespace code units of
the input, in order. -/
theorem flatten_splitWsAux :
    ∀ (l : List Nat) (b : Bool) (cur : List Nat),
      (splitWsAux b l cur).flatten = cur.reverse ++ l.filter (fun c => !isWs c) := by
  intro l
  induction l with
  | nil => intro b cur; simp [splitWsAux]
  | cons c rest ih =>
    intro b cur
    by_cases hws : isWs c
    · cases b with
      | true =>
        have hstep : splitWsAux true (c :: rest) cur = splitWsAux true rest cur := by
          simp [splitWsAux, hws]
        rw [hstep, ih true cur, List.filter_cons, if_neg (by simp [hws])]
      | false =>
        have hstep : splitWsAux false (c :: rest) cur =
            cur.reverse :: splitWsAux true rest [] := by
          simp [splitWsAux, hws]
        rw [hstep, List.flatten_cons, ih true [], List.filter_cons,
          if_neg (by simp [hws])]
        simp
    · have hstep : splitWsAux b (c :: rest) cur = splitWsAux false rest (c :: cur) := by
        cases b <;> simp [splitWsAux, hws]
      rw [hstep, ih false (c :: cur), List.filter_cons, if_pos (by simp [hws])]
      simp

theorem flatten_splitWs (s : Str) :
    (splitWs s).flatten = s.filter (fun c => !isWs c) := by
  simpa [splitWs] using flatten_splitWsAux s false []

/-- Lowercasing never turns a code unit into whitespace or vice versa. -/
theorem isWs_toLowerCode (c : Nat) : isWs (toLowerCode c) = isWs c := by
  unfold toLowerCode
  split
  · rename_i h
    obtain ⟨h1, h2⟩ := h
    interval_cases c <;> rfl
  · rfl

theorem toLowerCode_pos {c : Nat} (h : 0 < c) : 0 < toLowerCode c := by
  unfold toLowerCode
  split <;> omega

theorem sum_pos_of_mem {l : List ℚ} {x : ℚ} (hx : x ∈ l) (hxpos : 0 < x)
    (hnn : ∀ y ∈ l, 0 ≤ y) : 0 < l.sum := by
  rcases List.append_of_mem hx with ⟨s1, s2, rfl⟩
  rw [List.sum_append, List.sum_cons]
  have h1 : 0 ≤ s1.sum := List.sum_nonneg fun y hy => hnn y (by simp [hy])
  have h2 : 0 ≤ s2.sum := List.sum_nonneg fun y hy => hnn y (by simp [hy])
  linarith

/-- A non-whitespace code unit with positive value makes the raw embedding
entries sum to a positive total. -/
theorem sum_simpleTextEmbeddingRaw_pos (t : Str) (dims : Nat) (hd : 0 < dims)
    (h : ∃ c ∈ t, isWs c = false ∧ 0 < c) :
    0 < (simpleTextEmbeddingRaw t dims).sum := by
  rcases h with ⟨c0, hc0, hws, hpos⟩
  rw [sum_simpleTextEmbeddingRaw t dims hd, flatten_splitWs]
  have hmemlow : toLowerCode c0 ∈ lowerStr t := List.mem_map_of_mem toLowerCode hc0
  have hmemfil : toLowerCode c0 ∈ (lowerStr t).filter (fun c => !isWs c) :=
    List.mem_filter.mpr ⟨hmemlow, by simp [isWs_toLowerCode, hws]⟩
  have hmem : ((toLowerCode c0 : ℚ) / 1000) ∈
      ((lowerStr t).filter (fun c => !isWs c)).map fun c : Nat => (c : ℚ) / 1000 :=
    List.mem_map_of_mem _ hmemfil
  refine sum_pos_of_mem hmem ?_ ?_
  · have hc : (0 : ℚ) < (toLowerCode c0 : ℚ) := by
      exact_mod_cast toLowerCode_pos hpos
    exact div_pos hc (by norm_num)
  · intro y hy
    rcases List.mem_map.mp hy with ⟨c, _, rfl⟩
    positivity

theorem exists_pos_entry {v : List ℚ} (h : 0 < v.sum) : ∃ x ∈ v, 0 < x := by
  by_contra hcon
  push_neg at hcon
  have hle : v.sum ≤ 0 := by
    have : ∀ x ∈ v, x ≤ 0 := hcon
    clear hcon h
    induction v with
    | nil => simp
    | cons x xs ih =>
      rw [List.sum_cons]
      have hx := this x (List.mem_cons_self x xs)
      have hxs := ih fun y hy => this y (List.mem_cons_of_mem x hy)
      linarith
  linarith

theorem sumSq_pos {v : List ℚ} (h : ∃ x ∈ v, 0 < x) : 0 < sumSq v := by
  rcases h with ⟨x, hx, hxpos⟩
  rcases List.append_of_mem hx with ⟨s1, s2, rfl⟩
  unfold sumSq
  rw [List.map_append, List.sum_append, List.map_cons, List.sum_cons]
  have h1 : 0 ≤ (s1.map fun y => y * y).sum :=
    List.sum_nonneg (by
      intro z hz
      rcases List.mem_map.mp hz with ⟨y, _, rfl⟩
      exact mul_self_nonneg y)
  have h2 : 0 ≤ (s2.map fun y => y * y).sum :=
    List.sum_nonneg (by
      intro z hz
      rcases List.mem_map.mp hz with ⟨y, _, rfl⟩
      exact mul_self_nonneg y)
  have hx2 : 0 < x * x := mul_pos hxpos hxpos
  linarith

theorem cast_sumSq (v : List ℚ) :
    ((sumSq v : ℚ) : ℝ) = (v.map fun q : ℚ => (q : ℝ) * (q : ℝ)).sum := by
  unfold sumSq
  induction v with
  | nil => simp
  | cons x xs ih =>
    simp only [List.map_cons, List.sum_cons]
    rw [Rat.cast_add, Rat.cast_mul, ih]

/-! ## Claim theorems about the embedding function -/

/-- C6 amended: the embedding function is a pure deterministic map (two
calls on the same text give the same vector), and for every input
containing at least one non-whitespace code unit of positive value, the
squared L2 norm of the output is exactly 1 in the real-number model.  (The
claim's precondition "non-empty and not all-whitespace" is not quite
enough: an input consisting of NUL code units contributes 0 to every
slot, yielding the zero vector.) -/
theorem claim_C6_embedding (t : Str)
    (h : ∃ c ∈ t, isWs c = false ∧ 0 < c) :
    simpleTextEmbedding t 384 = simpleTextEmbedding t 384 ∧
    normSqR (simpleTextEmbedding t 384) = 1 := by
  refine ⟨rfl, ?_⟩
  have hS : 0 < sumSq (simpleTextEmbeddingRaw t 384) :=
    sumSq_pos (exists_pos_entry
      (sum_simpleTextEmbeddingRaw_pos t 384 (by norm_num) h))
  have hSR : (0 : ℝ) < ((sumSq (simpleTextEmbeddingRaw t 384) : ℚ) : ℝ) := by
    exact_mod_cast hS
  have hm : 0 < Real.sqrt ((sumSq (simpleTextEmbeddingRaw t 384) : ℚ) : ℝ) :=
    Real.sqrt_pos.mpr hSR
  simp only [simpleTextEmbedding]
  rw [if_pos hm]
  unfold normSqR
  rw [List.map_map]
  have hfun : ((fun x : ℝ => x * x) ∘ fun q : ℚ =>
      (q : ℝ) / Real.sqrt ((sumSq (simpleTextEmbeddingRaw t 384) : ℚ) : ℝ)) =
      fun q : ℚ => ((q : ℝ) * (q : ℝ)) *
        (Real.sqrt ((sumSq (simpleTextEmbeddingRaw t 384) : ℚ) : ℝ) *
         Real.sqrt ((sumSq (simpleTextEmbeddingRaw t 384) : ℚ) : ℝ))⁻¹ := by
    funext q
    show ((q : ℝ) / _) * ((q : ℝ) / _) = _
    rw [div_mul_div_comm, div_eq_mul_inv]
  rw [hfun, List.sum_map_mul_right, ← cast_sumSq,
    Real.mul_self_sqrt (le_of_lt hSR)]
  exact mul_inv_cancel₀ (ne_of_gt hSR)

/-- C6 witness: the amended statement at the concrete input "hi". -/
theorem claim_C6_witness :
    (∃ c ∈ strCodes "hi", isWs c = false ∧ 0 < c) ∧
    normSqR (simpleTextEmbedding (strCodes "hi") 384) = 1 :=
  ⟨by decide, (claim_C6_embedding (strCodes "hi") (by decide)).2⟩

section RatEval3
attribute [local semireducible] Rat.add Rat.mul Rat.inv Rat.sub
set_option maxRecDepth 4000

/-- C6 counterexample: the input consisting of the single NUL code unit is
non-empty and not all-whitespace, yet its embedding is the zero vector
(NUL contributes charCode/1000 = 0 to its slot, the magnitude is 0 and
normalization is skipped), so the output's L2 norm is 0, not 1. -/
theorem claim_C6_counterexample :
    ([0] : Str) ≠ [] ∧
    (∃ c ∈ ([0] : Str), isWs c = false) ∧
    normSqR (simpleTextEmbedding [0] 384) = 0 ∧
    ¬ normSqR (simpleTextEmbedding [0] 384) = 1 := by
  have hraw : simpleTextEmbeddingRaw [0] 384 = List.replicate 384 0 := by decide
  have hS : sumSq (simpleTextEmbeddingRaw [0] 384) = 0 := by
    rw [hraw]
    unfold sumSq
    rw [List.map_replicate]
    simp
  have hnorm : normSqR (simpleTextEmbedding [0] 384) = 0 := by
    simp only [simpleTextEmbedding]
    rw [if_neg (by rw [hS]; simp)]
    rw [hraw, List.map_replicate]
    unfold normSqR
    simp
  refine ⟨by decide, ⟨0, by decide, by decide⟩, hnorm, by rw [hnorm]; norm_num⟩

end RatEval3
